import Mathlib

/-!
# The index route handler of prebid-cache (`endpoints/index.go`)

A shallow embedding of `NewIndexHandler` together with the parts of the Go
standard library it calls:

* `utf8` : rune decoding and encoding (`unicode/utf8`);
* `fmt`  : `Fprintf` for a call with a format string and an empty operand list;
* `http` : the header map and a recording `ResponseWriter`;
* `embed`: `FS.ReadFile`, with the resource set kept as explicit state.

A Go `string` and a Go `[]byte` are both sequences of bytes: `List Byte`.
-/

set_option maxRecDepth 100000

/-- One byte, the Go type `byte`. -/
abbrev Byte := Fin 256

namespace utf8

/-- The constant `utf8.RuneError`, U+FFFD. -/
def RuneError : Nat := 65533

/-- The i-th byte of `s` as a number (only used below its length). -/
def byteAt (s : List Byte) (i : Nat) : Nat :=
  match s[i]? with
  | some b => b.val
  | none => 0

/-- The function `utf8.DecodeRuneInString`: the first rune of `s` and its
width in bytes; an invalid or short encoding gives `(RuneError, 1)`, the
empty string `(RuneError, 0)`. The tables `first` and `acceptRanges` are
unfolded into the ranges they hold. -/
def DecodeRuneInString (s : List Byte) : Nat × Nat :=
  let n := s.length
  if n < 1 then (RuneError, 0) else
  let s0 := byteAt s 0
  if s0 < 128 then (s0, 1) else
  -- first[s0] is invalid (xx) for 0x80..0xC1 and 0xF5..0xFF
  if s0 < 194 ∨ 244 < s0 then (RuneError, 1) else
  -- size and accept range of the second byte, from first[s0]
  let sz : Nat := if s0 < 224 then 2 else if s0 < 240 then 3 else 4
  let lo : Nat := if s0 = 224 then 160 else if s0 = 240 then 144 else 128
  let hi : Nat := if s0 = 237 then 159 else if s0 = 244 then 143 else 191
  if n < sz then (RuneError, 1) else
  let s1 := byteAt s 1
  if s1 < lo ∨ hi < s1 then (RuneError, 1) else
  if sz ≤ 2 then ((s0 % 32) * 64 + s1 % 64, 2) else
  let s2 := byteAt s 2
  if s2 < 128 ∨ 191 < s2 then (RuneError, 1) else
  if sz ≤ 3 then ((s0 % 16) * 4096 + (s1 % 64) * 64 + s2 % 64, 3) else
  let s3 := byteAt s 3
  if s3 < 128 ∨ 191 < s3 then (RuneError, 1) else
  ((s0 % 8) * 262144 + (s1 % 64) * 4096 + (s2 % 64) * 64 + s3 % 64, 4)

/-- Truncation of a number to a byte, Go's conversion `byte(x)`. -/
def toByte (x : Nat) : Byte := Fin.ofNat x

/-- The function `utf8.AppendRune`: `p` followed by the UTF-8 encoding of `r`. -/
def AppendRune (p : List Byte) (r : Nat) : List Byte :=
  if r ≤ 127 then p ++ [toByte r]
  else if r ≤ 2047 then p ++ [toByte (192 + r / 64), toByte (128 + r % 64)]
  else if r < 55296 ∨ (57343 < r ∧ r ≤ 65535) then
    p ++ [toByte (224 + r / 4096), toByte (128 + (r / 64) % 64), toByte (128 + r % 64)]
  else if r > 65535 ∧ r ≤ 1114111 then
    p ++ [toByte (240 + r / 262144), toByte (128 + (r / 4096) % 64),
          toByte (128 + (r / 64) % 64), toByte (128 + r % 64)]
  else p ++ [239, 191, 189]

/-- The bytes of a string constant: the conversion `[]byte(s)` of a Go string
literal, which is its UTF-8 encoding. -/
def bytes (s : String) : List Byte :=
  s.data.foldl (fun acc c => AppendRune acc c.toNat) []

end utf8

namespace fmt

open utf8 (byteAt DecodeRuneInString AppendRune)

/-- The constant `percentBangString`. -/
def percentBangString : List Byte := utf8.bytes "%!"
/-- The constant `missingString`. -/
def missingString : List Byte := utf8.bytes "(MISSING)"
/-- The constant `badIndexString`. -/
def badIndexString : List Byte := utf8.bytes "(BADINDEX)"
/-- The constant `noVerbString`. -/
def noVerbString : List Byte := utf8.bytes "%!(NOVERB)"
/-- The constant `badWidthString`. -/
def badWidthString : List Byte := utf8.bytes "%!(BADWIDTH)"
/-- The constant `badPrecString`. -/
def badPrecString : List Byte := utf8.bytes "%!(BADPREC)"

/-- The function `tooLarge`: whether a parsed number is beyond a million. -/
def tooLarge (x : Int) : Bool := decide (x > 1000000 ∨ x < -1000000)

/-- The loop of `parsenum` over the bytes `s[newi:end]` still to be read:
digits are accumulated until a non-digit or the end; a number that grows too
large stops the scan at `end`. -/
def parsenumLoop (end_ : Nat) : List Byte → Nat → Int → Bool → Int × Bool × Nat
  | [], newi, num, isnum => (num, isnum, newi)
  | c :: cs, newi, num, isnum =>
    if 48 ≤ c.val ∧ c.val ≤ 57 then
      if tooLarge num then (0, false, end_)
      else parsenumLoop end_ cs (newi + 1) (num * 10 + ((c.val : Int) - 48)) true
    else (num, isnum, newi)

/-- The function `parsenum(s, start, end)`: the number at `s[start:end]`,
whether there was one, and the index after it. -/
def parsenum (s : List Byte) (start end_ : Nat) : Int × Bool × Nat :=
  if start ≥ end_ then (0, false, end_)
  else parsenumLoop end_ ((s.take end_).drop start) start 0 false

/-- The search of `parseArgNumber` for the closing bracket: the first index
`i`, counted from the given one, whose byte is `]`. -/
def findClose : List Byte → Nat → Option Nat
  | [], _ => none
  | c :: cs, i => if c.val = 93 then some i else findClose cs (i + 1)

/-- The function `parseArgNumber(format)`, where `format` starts at a `[`:
the index in the brackets (zero-based), the width of the bracket expression,
and whether it is well formed. -/
def parseArgNumber (format : List Byte) : Int × Nat × Bool :=
  if format.length < 3 then (0, 1, false)
  else
    match findClose (format.drop 1) 1 with
    | some i =>
      let (width, ok, newi) := parsenum format 1 i
      if !ok || newi ≠ i then (0, i + 1, false)
      else (width - 1, i + 1, true)
    | none => (0, 1, false)

/-- The method `argNumber` for a call without operands (`numArgs = 0`): no
index is ever in range, so a bracket expression always clears `goodArgNum`
and leaves `argNum` alone. Returns the new index into the format, whether an
index expression was found, and the new `goodArgNum`. -/
def argNumber (format : List Byte) (i : Nat) (goodArgNum : Bool) : Nat × Bool × Bool :=
  if format.length ≤ i ∨ byteAt format i ≠ 91 then (i, false, goodArgNum)
  else
    let (_, wid, ok) := parseArgNumber (format.drop i)
    (i + wid, ok, false)

/-- The bytes that the flag loop of `doPrintf` consumes: `#`, `0`, `+`, `-`
and the space. Without operands the fast path for simple verbs is never taken
(`argNum < len(a)` is false), so any other byte ends the loop. -/
def isFlag (c : Byte) : Bool :=
  c.val = 35 || c.val = 48 || c.val = 43 || c.val = 45 || c.val = 32

/-- The flag loop of `doPrintf`: the index of the first byte from `i` on
that is not a flag. -/
def skipFlags (format : List Byte) (i : Nat) : Nat :=
  i + ((format.drop i).takeWhile isFlag).length

/-- The first loop of `doPrintf`: the index of the first `%` from `i` on,
or the length of the format. -/
def scanPercent (format : List Byte) (i : Nat) : Nat :=
  i + ((format.drop i).takeWhile (fun c => decide (c.val ≠ 37))).length

/-- The method `badArgNum`. -/
def badArgNum (buf : List Byte) (verb : Nat) : List Byte :=
  AppendRune (buf ++ percentBangString) verb ++ badIndexString

/-- The method `missingArg`. -/
def missingArg (buf : List Byte) (verb : Nat) : List Byte :=
  AppendRune (buf ++ percentBangString) verb ++ missingString

/-- The width part of a verb in `doPrintf`, for a call without operands:
a `*` finds no operand (`intFromArg` leaves `widPresent` false) and prints
`badWidthString`; otherwise a number is read, which after an argument index
clears `goodArgNum`. Returns the index, the buffer, `afterIndex` and
`goodArgNum`. -/
def parseWidth (format : List Byte) (i : Nat) (buf : List Byte) (afterIndex goodArgNum : Bool) :
    Nat × List Byte × Bool × Bool :=
  let end_ := format.length
  if i < end_ ∧ byteAt format i = 42 then
    (i + 1, buf ++ badWidthString, false, goodArgNum)
  else
    let (_, widPresent, i) := parsenum format i end_
    (i, buf, afterIndex, if afterIndex && widPresent then false else goodArgNum)

/-- The precision part of a verb in `doPrintf`, for a call without operands:
after a `.` that is not the last byte of the format (`i+1 < end`) an argument
index may follow, then a `*` (which finds no operand and prints
`badPrecString`) or a number; a `.` at the very end is left to be read as the
verb. Returns the index, the buffer, `afterIndex` and `goodArgNum`. -/
def parsePrecision (format : List Byte) (i : Nat) (buf : List Byte)
    (afterIndex goodArgNum : Bool) : Nat × List Byte × Bool × Bool :=
  let end_ := format.length
  if i + 1 < end_ ∧ byteAt format i = 46 then
    let i := i + 1
    let goodArgNum := if afterIndex then false else goodArgNum
    let (i, afterIndex, goodArgNum) := argNumber format i goodArgNum
    if i < end_ ∧ byteAt format i = 42 then
      (i + 1, buf ++ badPrecString, false, goodArgNum)
    else
      let (_, _, i) := parsenum format i end_
      (i, buf, afterIndex, goodArgNum)
  else (i, buf, afterIndex, goodArgNum)

/-- The end of a verb in `doPrintf`, for a call without operands: a format
that ends here prints `noVerbString` and leaves the loop (`none`); otherwise
the verb rune is read, `%` prints a percent sign, a bad argument index prints
`badArgNum`, and any other verb finds no operand and prints `missingArg`. -/
def printVerb (format : List Byte) (i : Nat) (buf : List Byte) (goodArgNum : Bool) :
    List Byte × Option Nat :=
  let end_ := format.length
  if i ≥ end_ then (buf ++ noVerbString, none)
  else
    let (verb, size) :=
      if byteAt format i ≥ 128 then DecodeRuneInString (format.drop i)
      else (byteAt format i, 1)
    let i := i + size
    if verb = 37 then (buf ++ [37], some i)
    else if !goodArgNum then (badArgNum buf verb, some i)
    else (missingArg buf verb, some i)

/-- One verb of `doPrintf`, for a call without operands: `i` is the index
after the `%`. Flags, argument index, width, precision, argument index and
verb are read in this order. Returns the buffer and the index to go on from,
or `none` when the format ended inside the verb. -/
def verbStep (format : List Byte) (i : Nat) (buf : List Byte) : List Byte × Option Nat :=
  let i := skipFlags format i
  let (i, afterIndex, goodArgNum) := argNumber format i true
  let (i, buf, afterIndex, goodArgNum) := parseWidth format i buf afterIndex goodArgNum
  let (i, buf, afterIndex, goodArgNum) := parsePrecision format i buf afterIndex goodArgNum
  let (i, goodArgNum) :=
    if !afterIndex then
      let (i, _, goodArgNum) := argNumber format i goodArgNum
      (i, goodArgNum)
    else (i, goodArgNum)
  printVerb format i buf goodArgNum

/-- The format loop of `doPrintf` for a call without operands, with a bound
on the number of iterations: `none` when the bound is reached. -/
def doPrintfLoop (format : List Byte) : Nat → Nat → List Byte → Option (List Byte)
  | 0, _, _ => none
  | fuel + 1, i, buf =>
    let end_ := format.length
    if i < end_ then
      let lasti := i
      let i := scanPercent format i
      let buf := if i > lasti then buf ++ (format.take i).drop lasti else buf
      if i ≥ end_ then some buf
      else
        match verbStep format (i + 1) buf with
        | (buf, none) => some buf
        | (buf, some i) => doPrintfLoop format fuel i buf
    else some buf

/-- The method `doPrintf(format, a)` with `a` empty: the contents of the
print buffer afterwards. Every iteration of the format loop consumes at least
one byte, so `len(format) + 1` iterations are enough
(`fmt.doPrintfLoop_terminates`). -/
def doPrintf (format : List Byte) : List Byte :=
  match doPrintfLoop format (format.length + 1) 0 [] with
  | some buf => buf
  | none => []

end fmt

namespace textproto

/-- The function `validHeaderFieldByte`: whether a byte is a token character
of RFC 7230 (a letter, a digit, or one of the punctuation marks
33 35 36 37 38 39 42 43 45 46 94 95 96 124 126). -/
def validHeaderFieldByte (c : Nat) : Bool :=
  (48 ≤ c && c ≤ 57) || (65 ≤ c && c ≤ 90) || (97 ≤ c && c ≤ 122) ||
  [33, 35, 36, 37, 38, 39, 42, 43, 45, 46, 94, 95, 96, 124, 126].contains c

/-- The second loop of `canonicalMIMEHeaderKey`: the first letter and every
letter after a dash in upper case, every other letter in lower case. -/
def canonLoop : List Char → Bool → List Char
  | [], _ => []
  | c :: cs, upper =>
    let n := c.toNat
    let n := if upper && 97 ≤ n && n ≤ 122 then n - 32
             else if !upper && 65 ≤ n && n ≤ 90 then n + 32
             else n
    Char.ofNat n :: canonLoop cs (n = 45)

/-- The function `CanonicalMIMEHeaderKey`: a key with a byte that is not a
token character (a space included) is returned unchanged, any other key is
canonicalised. A key is a text here; a character beyond ASCII stands for
bytes that are no token characters. -/
def CanonicalMIMEHeaderKey (s : String) : String :=
  if s.data.all (fun c => validHeaderFieldByte c.toNat) then String.mk (canonLoop s.data true)
  else s

end textproto

namespace http

/-- The type `http.Header`, a map from keys to lists of values. -/
abbrev Header := String → Option (List String)

/-- The empty header map. -/
def Header.empty : Header := fun _ => none

/-- The method `Header.Set`: the entry of the canonical key is replaced by
the single value. -/
def Header.Set (h : Header) (key value : String) : Header :=
  fun k => if k = textproto.CanonicalMIMEHeaderKey key then some [value] else h k

/-- The method `Header.Get`: the first value of the canonical key, or the
empty string. -/
def Header.Get (h : Header) (key : String) : String :=
  match h (textproto.CanonicalMIMEHeaderKey key) with
  | some (v :: _) => v
  | _ => ""

/-- The constant `http.StatusOK`. -/
def StatusOK : Int := 200

/-- A call made on a response writer. -/
inductive Call where
  | headerSet (key value : String)
  | writeHeader (statusCode : Int)
  | write (b : List Byte)
deriving DecidableEq, Repr

/-- The status code of a call of `WriteHeader`, no code for another call. -/
def Call.statusCode : Call → Option Int
  | Call.writeHeader c => some c
  | _ => none

/-- A recording implementation of the interface `http.ResponseWriter`,
after `httptest.ResponseRecorder`: `header` is the map that `Header()`
returns, `status` and `sentHeader` are the status line and the snapshot of
the header map committed by the first `WriteHeader`, `body` collects the
bytes written, and `calls` logs the calls made on the writer in order.
`sniff` stands for `http.DetectContentType`, whose tables are not modelled. -/
structure ResponseWriter where
  header : Header
  status : Option Int
  sentHeader : Header
  body : List Byte
  calls : List Call
  sniff : List Byte → String

/-- A fresh writer (`httptest.NewRecorder`): nothing set, nothing sent. -/
def NewRecorder (sniff : List Byte → String) : ResponseWriter :=
  { header := Header.empty, status := none, sentHeader := Header.empty,
    body := [], calls := [], sniff := sniff }

/-- The commit of the status line: the first call fixes the status code and
the headers of the response, a later call changes nothing. -/
def ResponseWriter.commit (w : ResponseWriter) (statusCode : Int) : ResponseWriter :=
  match w.status with
  | some _ => w
  | none => { w with status := some statusCode, sentHeader := w.header }

/-- The call `w.Header().Set(key, value)`. -/
def ResponseWriter.HeaderSet (w : ResponseWriter) (key value : String) : ResponseWriter :=
  { w with header := w.header.Set key value,
           calls := w.calls ++ [Call.headerSet key value] }

/-- The method `WriteHeader(statusCode)`, for a status code from 100 to 999
(the recorder panics on any other). -/
def ResponseWriter.WriteHeader (w : ResponseWriter) (statusCode : Int) : ResponseWriter :=
  { w.commit statusCode with calls := w.calls ++ [Call.writeHeader statusCode] }

/-- The method `Write(b)`: when no status line was committed yet, a
`Content-Type` found by sniffing is set unless the map has a `Content-Type`
or a `Transfer-Encoding`, and status 200 is committed; then the bytes are
appended to the body. -/
def ResponseWriter.Write (w : ResponseWriter) (b : List Byte) : ResponseWriter :=
  let w1 : ResponseWriter :=
    match w.status with
    | some _ => w
    | none =>
      let hasType := (w.header "Content-Type").isSome
      let hasTE := w.header.Get "Transfer-Encoding" ≠ ""
      let m := if !hasType && !hasTE then w.header.Set "Content-Type" (w.sniff b) else w.header
      ({ w with header := m }).commit StatusOK
  { w1 with body := w1.body ++ b, calls := w.calls ++ [Call.write b] }

/-- The type `http.Request`, as far as a handler can observe it. -/
structure Request where
  Method : String
  URL : String
  Header : Header
  Body : List Byte

end http

namespace fmt

/-- The function `fmt.Fprintf(w, format)` called without operands: the
format is interpreted by `doPrintf` and the buffer is written to `w` with a
single `Write`. -/
def Fprintf (w : http.ResponseWriter) (format : List Byte) : http.ResponseWriter :=
  w.Write (doPrintf format)

end fmt

namespace httprouter

/-- The type `httprouter.Param`: one URL parameter. -/
structure Param where
  Key : String
  Value : String
deriving DecidableEq, Repr

/-- The type `httprouter.Params`. -/
abbrev Params := List Param

end httprouter

namespace embed

/-- The error of a failed read, `fs.PathError`. -/
structure PathError where
  Op : String
  Path : String
  Err : String
deriving DecidableEq, Repr

/-- The type `embed.FS`: the read-only resource set built into the program,
as the outcome of a read of each path. -/
structure FS where
  files : String → Except PathError (List Byte)

end embed

namespace endpoints

/-- The state of the package: the variable `staticFiles` and, for the
record, the paths read from it so far. -/
structure State where
  staticFiles : embed.FS
  reads : List String

/-- The call `staticFiles.ReadFile(name)`. -/
def ReadFile (name : String) (σ : State) : Except embed.PathError (List Byte) × State :=
  (σ.staticFiles.files name, { σ with reads := σ.reads ++ [name] })

/-- The type of the handle functions that `NewIndexHandler` returns,
`func(http.ResponseWriter, *http.Request, httprouter.Params)`: a handle works
on its response writer and runs in the state of the package. -/
abbrev Handle :=
  http.ResponseWriter → http.Request → httprouter.Params → State → http.ResponseWriter × State

/-- The function `NewIndexHandler(message)`: the embedded page is read once;
if the read fails the handle returned writes status 200 and prints the
message, otherwise it sets the content type, writes status 200 and writes the
page. -/
def NewIndexHandler (message : List Byte) (σ : State) : Handle × State :=
  match ReadFile "static/index.html" σ with
  | (Except.error _, σ1) =>
    -- Fall back to plain text config message
    (fun w _r _ps τ =>
      let w := w.WriteHeader http.StatusOK
      let w := fmt.Fprintf w message
      (w, τ), σ1)
  | (Except.ok htmlContent, σ1) =>
    (fun w _r _ps τ =>
      let w := w.HeaderSet "Content-Type" "text/html; charset=utf-8"
      let w := w.WriteHeader http.StatusOK
      let w := w.Write htmlContent
      (w, τ), σ1)

/-- The response writer after one invocation of the handle that
`NewIndexHandler(message)` returned in state `σ`: the handle is called on the
writer `w` with request `r` and parameters `ps`, in the state `τ` that the
package has at the time of the call. -/
def invoke (message : List Byte) (σ : State) (w : http.ResponseWriter) (r : http.Request)
    (ps : httprouter.Params) (τ : State) : http.ResponseWriter :=
  ((NewIndexHandler message σ).1 w r ps τ).1

/-- A run of one handle over a sequence of requests, each answered on a
writer in the initial state `w`, the state of the package being passed from
one invocation to the next: the responses in order, and the final state. -/
def serveAll (h : Handle) (w : http.ResponseWriter) :
    List (http.Request × httprouter.Params) → State → List http.ResponseWriter × State
  | [], τ => ([], τ)
  | (r, ps) :: rest, τ =>
    let (w1, τ1) := h w r ps τ
    let (ws, τ2) := serveAll h w rest τ1
    (w1 :: ws, τ2)

/-- The path of the embedded page. -/
def indexPath : String := "static/index.html"

end endpoints

/-! ## Concrete inputs -/

namespace Sample

/-- A content sniffer that takes everything for plain text. -/
def sniffPlain : List Byte → String := fun _ => "text/plain; charset=utf-8"

/-- The page `<html>ok</html>`. -/
def page : List Byte := utf8.bytes "<html>ok</html>"

/-- The error of `embed.FS` for a file that does not exist. -/
def errNotExist : embed.PathError :=
  { Op := "open", Path := "static/index.html", Err := "file does not exist" }

/-- The error of `embed.FS` for a read of a directory. -/
def errIsDir : embed.PathError :=
  { Op := "read", Path := "static/index.html", Err := "is a directory" }

/-- A resource set with the page at `static/index.html`. -/
def withPage : endpoints.State :=
  { staticFiles := { files := fun name =>
      if name = "static/index.html" then Except.ok page
      else Except.error { Op := "open", Path := name, Err := "file does not exist" } },
    reads := [] }

/-- An empty resource set: every read fails, the file does not exist. -/
def noPage : endpoints.State :=
  { staticFiles := { files := fun _ => Except.error errNotExist }, reads := [] }

/-- A resource set where `static/index.html` is a directory. -/
def dirPage : endpoints.State :=
  { staticFiles := { files := fun _ => Except.error errIsDir }, reads := [] }

/-- The request `GET /`. -/
def getRoot : http.Request :=
  { Method := "GET", URL := "/", Header := http.Header.empty, Body := [] }

/-- The request `POST /?x=1` with a body and a header. -/
def postRoot : http.Request :=
  { Method := "POST", URL := "/?x=1",
    Header := http.Header.Set http.Header.empty "Accept" "text/plain", Body := [1, 2, 3] }

/-- A writer on which `X-Trace` and a `Content-Type` are already set. -/
def presetWriter : http.ResponseWriter :=
  ((http.NewRecorder sniffPlain).HeaderSet "X-Trace" "7").HeaderSet "Content-Type" "image/png"

end Sample

/-! ## Termination of the format loop -/

namespace fmt

open utf8 (byteAt DecodeRuneInString)

theorem length_takeWhile_le_length {α : Type} (p : α → Bool) :
    ∀ l : List α, (l.takeWhile p).length ≤ l.length
  | [] => by simp
  | a :: l => by
    have ih := length_takeWhile_le_length p l
    by_cases h : p a = true
    · simp [List.takeWhile, h]; omega
    · simp [List.takeWhile, h]

theorem skipFlags_bounds (format : List Byte) (i : Nat) (h : i ≤ format.length) :
    i ≤ skipFlags format i ∧ skipFlags format i ≤ format.length := by
  unfold skipFlags
  have h1 := length_takeWhile_le_length isFlag (format.drop i)
  simp only [List.length_drop] at h1
  omega

theorem scanPercent_ge (format : List Byte) (i : Nat) : i ≤ scanPercent format i := by
  unfold scanPercent
  omega

theorem parsenumLoop_bounds (end_ : Nat) :
    ∀ (cs : List Byte) (newi : Nat) (num : Int) (isnum : Bool),
      newi + cs.length ≤ end_ →
      newi ≤ (parsenumLoop end_ cs newi num isnum).2.2 ∧
        (parsenumLoop end_ cs newi num isnum).2.2 ≤ end_
  | [], newi, num, isnum, h => by
    simp only [parsenumLoop, List.length_nil] at *
    omega
  | c :: cs, newi, num, isnum, h => by
    simp only [List.length_cons] at h
    simp only [parsenumLoop]
    split
    · split
      · simp only
        omega
      · have ih := parsenumLoop_bounds end_ cs (newi + 1)
          (num * 10 + ((c.val : Int) - 48)) true (by omega)
        omega
    · simp only
      omega

theorem parsenum_bounds (s : List Byte) (start end_ : Nat) (h : start ≤ end_) :
    start ≤ (parsenum s start end_).2.2 ∧ (parsenum s start end_).2.2 ≤ end_ := by
  unfold parsenum
  split
  · simp only
    omega
  · apply parsenumLoop_bounds
    simp only [List.length_drop, List.length_take]
    omega

theorem findClose_bounds :
    ∀ (l : List Byte) (k i : Nat), findClose l k = some i → k ≤ i ∧ i < k + l.length
  | [], k, i, h => by simp [findClose] at h
  | c :: cs, k, i, h => by
    simp only [findClose] at h
    split at h
    · simp only [Option.some.injEq] at h
      simp only [List.length_cons]
      omega
    · have ih := findClose_bounds cs (k + 1) i h
      simp only [List.length_cons]
      omega

theorem parseArgNumber_wid (format : List Byte) (h : 1 ≤ format.length) :
    (parseArgNumber format).2.1 ≤ format.length := by
  unfold parseArgNumber
  split
  · simpa using h
  · split
    · rename_i i hi
      have hb := findClose_bounds _ _ _ hi
      simp only [List.length_drop] at hb
      split
      split <;> simp only <;> omega
    · simpa using h

theorem argNumber_bounds (format : List Byte) (i : Nat) (g : Bool) (h : i ≤ format.length) :
    i ≤ (argNumber format i g).1 ∧ (argNumber format i g).1 ≤ format.length := by
  unfold argNumber
  split
  · simp only
    omega
  · rename_i hc
    have hlt : i < format.length := by omega
    have hw := parseArgNumber_wid (format.drop i) (by simp only [List.length_drop]; omega)
    simp only [List.length_drop] at hw
    generalize parseArgNumber (format.drop i) = r at hw
    obtain ⟨_, wid, ok⟩ := r
    simp only at hw ⊢
    omega

theorem parseWidth_bounds (format : List Byte) (i : Nat) (buf : List Byte) (a g : Bool)
    (h : i ≤ format.length) :
    i ≤ (parseWidth format i buf a g).1 ∧ (parseWidth format i buf a g).1 ≤ format.length := by
  unfold parseWidth
  simp only
  split
  · simp only
    omega
  · have hp := parsenum_bounds format i format.length h
    generalize parsenum format i format.length = r at hp
    obtain ⟨_, wp, j⟩ := r
    simp only at hp ⊢
    omega

theorem parsePrecision_bounds (format : List Byte) (i : Nat) (buf : List Byte) (a g : Bool)
    (h : i ≤ format.length) :
    i ≤ (parsePrecision format i buf a g).1 ∧
      (parsePrecision format i buf a g).1 ≤ format.length := by
  unfold parsePrecision
  simp only
  split
  · rename_i hc
    have ha := argNumber_bounds format (i + 1) (if a = true then false else g) (by omega)
    generalize argNumber format (i + 1) (if a = true then false else g) = r at ha
    obtain ⟨j, a1, g1⟩ := r
    simp only at ha ⊢
    split
    · simp only
      omega
    · have hp := parsenum_bounds format j format.length (by omega)
      generalize parsenum format j format.length = r at hp
      obtain ⟨_, wp, k⟩ := r
      simp only at hp ⊢
      omega
  · simp only
    omega

theorem printVerb_next (format : List Byte) (i : Nat) (buf : List Byte) (g : Bool) (j : Nat)
    (h : (printVerb format i buf g).2 = some j) : i ≤ j := by
  unfold printVerb at h
  simp only at h
  split at h
  · simp at h
  · generalize (if byteAt format i ≥ 128 then DecodeRuneInString (format.drop i)
      else (byteAt format i, 1)) = r at h
    obtain ⟨verb, size⟩ := r
    simp only at h
    split at h
    · simp only [Option.some.injEq] at h
      omega
    · split at h <;> simp only [Option.some.injEq] at h <;> omega

theorem verbStep_next (format : List Byte) (i : Nat) (buf : List Byte) (j : Nat)
    (hi : i ≤ format.length) (h : (verbStep format i buf).2 = some j) : i ≤ j := by
  unfold verbStep at h
  simp only at h
  have h1 := skipFlags_bounds format i hi
  generalize skipFlags format i = i1 at h h1
  have h2 := argNumber_bounds format i1 true h1.2
  generalize argNumber format i1 true = r2 at h h2
  obtain ⟨i2, a2, g2⟩ := r2
  simp only at h h2
  have h3 := parseWidth_bounds format i2 buf a2 g2 h2.2
  generalize parseWidth format i2 buf a2 g2 = r3 at h h3
  obtain ⟨i3, b3, a3, g3⟩ := r3
  simp only at h h3
  have h4 := parsePrecision_bounds format i3 b3 a3 g3 h3.2
  generalize parsePrecision format i3 b3 a3 g3 = r4 at h h4
  obtain ⟨i4, b4, a4, g4⟩ := r4
  simp only at h h4
  cases a4
  · have h5 := argNumber_bounds format i4 g4 h4.2
    generalize argNumber format i4 g4 = r5 at h h5
    obtain ⟨i5, a5, g5⟩ := r5
    simp only [Bool.not_false, if_true] at h h5
    have := printVerb_next format i5 b4 g5 j h
    omega
  · simp only [Bool.not_true, Bool.false_eq_true, if_false] at h
    have := printVerb_next format i4 b4 g4 j h
    omega

/-- The format loop returns: each iteration moves the index forward, so a
bound above the number of bytes left is never reached. -/
theorem doPrintfLoop_terminates (format : List Byte) :
    ∀ (fuel i : Nat) (buf : List Byte), format.length - i < fuel →
      ∃ out, doPrintfLoop format fuel i buf = some out
  | 0, i, buf, h => by omega
  | fuel + 1, i, buf, h => by
    simp only [doPrintfLoop]
    split
    · rename_i hlt
      have hs := scanPercent_ge format i
      split
      · exact ⟨_, rfl⟩
      · rename_i hge
        split
        · exact ⟨_, rfl⟩
        · rename_i b j hv
          have hj := verbStep_next format (scanPercent format i + 1) _ j (by omega)
            (by rw [hv])
          exact doPrintfLoop_terminates format fuel j b (by omega)
    · exact ⟨_, rfl⟩

/-- The result of `doPrintf` is the result of its format loop. -/
theorem doPrintf_eq_loop (format : List Byte) :
    doPrintfLoop format (format.length + 1) 0 [] = some (doPrintf format) := by
  obtain ⟨out, h⟩ := doPrintfLoop_terminates format (format.length + 1) 0 [] (by omega)
  simp only [doPrintf, h]

theorem takeWhile_eq_self_of_forall {α : Type} (p : α → Bool) :
    ∀ l : List α, (∀ x ∈ l, p x = true) → l.takeWhile p = l
  | [], _ => rfl
  | a :: l, h => by
    have ha : p a = true := h a (List.mem_cons_self a l)
    have ih := takeWhile_eq_self_of_forall p l (fun x hx => h x (List.mem_cons_of_mem a hx))
    simp [List.takeWhile, ha, ih]

/-- A format without a percent sign is copied to the buffer unchanged. -/
theorem doPrintf_of_no_percent (format : List Byte) (h : ∀ c ∈ format, c ≠ (37 : Byte)) :
    doPrintf format = format := by
  have hs : scanPercent format 0 = format.length := by
    unfold scanPercent
    rw [List.drop_zero, takeWhile_eq_self_of_forall]
    · omega
    · intro x hx
      have := h x hx
      simp only [decide_eq_true_eq]
      intro hv
      exact this (Fin.ext hv)
  unfold doPrintf
  cases hf : format with
  | nil => simp [doPrintfLoop]
  | cons c cs =>
    rw [← hf]
    have hpos : 0 < format.length := by rw [hf]; simp
    simp [doPrintfLoop, hs, hpos]

end fmt

/-! ## The handle functions -/

namespace endpoints

open http (ResponseWriter Call)

theorem canonical_content_type :
    textproto.CanonicalMIMEHeaderKey "Content-Type" = "Content-Type" := by decide

/-- The handle built after a failed read. -/
theorem NewIndexHandler_of_error (message : List Byte) (σ : State) (e : embed.PathError)
    (h : σ.staticFiles.files "static/index.html" = Except.error e) :
    NewIndexHandler message σ =
      (fun w _ _ τ => (fmt.Fprintf (w.WriteHeader http.StatusOK) message, τ),
       { σ with reads := σ.reads ++ ["static/index.html"] }) := by
  simp only [NewIndexHandler, ReadFile, h]

/-- The handle built after a successful read. -/
theorem NewIndexHandler_of_ok (message : List Byte) (σ : State) (B : List Byte)
    (h : σ.staticFiles.files "static/index.html" = Except.ok B) :
    NewIndexHandler message σ =
      (fun w _ _ τ =>
        (((w.HeaderSet "Content-Type" "text/html; charset=utf-8").WriteHeader
            http.StatusOK).Write B, τ),
       { σ with reads := σ.reads ++ ["static/index.html"] }) := by
  simp only [NewIndexHandler, ReadFile, h]

theorem invoke_of_error (message : List Byte) (σ : State) (e : embed.PathError)
    (h : σ.staticFiles.files "static/index.html" = Except.error e)
    (w : ResponseWriter) (r : http.Request) (ps : httprouter.Params) (τ : State) :
    invoke message σ w r ps τ = fmt.Fprintf (w.WriteHeader http.StatusOK) message := by
  simp only [invoke, NewIndexHandler_of_error message σ e h]

theorem invoke_of_ok (message : List Byte) (σ : State) (B : List Byte)
    (h : σ.staticFiles.files "static/index.html" = Except.ok B)
    (w : ResponseWriter) (r : http.Request) (ps : httprouter.Params) (τ : State) :
    invoke message σ w r ps τ =
      ((w.HeaderSet "Content-Type" "text/html; charset=utf-8").WriteHeader
        http.StatusOK).Write B := by
  simp only [invoke, NewIndexHandler_of_ok message σ B h]

/-- On a committed writer `Write` only appends. -/
theorem Write_of_committed (w : ResponseWriter) (b : List Byte) (c : Int)
    (h : w.status = some c) :
    w.Write b = { w with body := w.body ++ b, calls := w.calls ++ [Call.write b] } := by
  simp only [ResponseWriter.Write, h]

/-- The status after `WriteHeader`: the one committed before, or the new one. -/
theorem WriteHeader_status (w : ResponseWriter) (c : Int) :
    (w.WriteHeader c).status = some (w.status.getD c) := by
  cases h : w.status <;> simp [ResponseWriter.WriteHeader, ResponseWriter.commit, h]

/-- What `WriteHeader` followed by `Write` does to a writer. -/
theorem WriteHeader_Write (w : ResponseWriter) (c : Int) (b : List Byte) :
    (w.WriteHeader c).Write b =
      { w.commit c with body := w.body ++ b,
                        calls := w.calls ++ [Call.writeHeader c, Call.write b] } := by
  rw [Write_of_committed _ b _ (WriteHeader_status w c)]
  cases h : w.status <;>
    simp [ResponseWriter.WriteHeader, ResponseWriter.commit, h]

/-- A handle leaves the state of the package as it finds it, and its
response is the one `invoke` names, whatever the request is. -/
theorem handle_apply (message : List Byte) (σ : State) (w : ResponseWriter)
    (r : http.Request) (ps : httprouter.Params) (τ : State) :
    (NewIndexHandler message σ).1 w r ps τ = (invoke message σ w r ps τ, τ) := by
  cases hr : σ.staticFiles.files "static/index.html" with
  | error e => simp only [invoke, NewIndexHandler_of_error message σ e hr]
  | ok B => simp only [invoke, NewIndexHandler_of_ok message σ B hr]

/-- The response does not depend on the request, the parameters or the
state of the package at the time of the call. -/
theorem invoke_const (message : List Byte) (σ : State) (w : ResponseWriter)
    (r1 r2 : http.Request) (ps1 ps2 : httprouter.Params) (τ1 τ2 : State) :
    invoke message σ w r1 ps1 τ1 = invoke message σ w r2 ps2 τ2 := by
  cases hr : σ.staticFiles.files "static/index.html" with
  | error e => rw [invoke_of_error message σ e hr, invoke_of_error message σ e hr]
  | ok B => rw [invoke_of_ok message σ B hr, invoke_of_ok message σ B hr]

/-- A run over a sequence of requests gives the same response each time and
leaves the state of the package unchanged. -/
theorem serveAll_handle (message : List Byte) (σ : State) (w : ResponseWriter)
    (r0 : http.Request) (ps0 : httprouter.Params) (τ0 : State) :
    ∀ (reqs : List (http.Request × httprouter.Params)) (τ : State),
      serveAll (NewIndexHandler message σ).1 w reqs τ =
        (List.replicate reqs.length (invoke message σ w r0 ps0 τ0), τ)
  | [], τ => rfl
  | (r, ps) :: rest, τ => by
    simp only [serveAll, handle_apply, serveAll_handle message σ w r0 ps0 τ0 rest τ,
      List.length_cons, List.replicate_succ]
    rw [invoke_const message σ w r r0 ps ps0 τ τ0]

/-- The decision of `NewIndexHandler` is taken once: construction reads the
embedded page once (the read log grows by the one path, the resource set is
untouched); the handle returned reads nothing, so one invocation and any run
of invocations leave the state of the package as it was; and the response of
the handle is the same in every later state of the package. -/
theorem handle_stable (message : List Byte) (σ τ : State) (w : ResponseWriter)
    (r : http.Request) (ps : httprouter.Params)
    (reqs : List (http.Request × httprouter.Params)) :
    (NewIndexHandler message σ).2.reads = σ.reads ++ [indexPath] ∧
    (NewIndexHandler message σ).2.staticFiles = σ.staticFiles ∧
    ((NewIndexHandler message σ).1 w r ps τ).2 = τ ∧
    (serveAll (NewIndexHandler message σ).1 w reqs τ).2 = τ ∧
    invoke message σ w r ps τ = invoke message σ w r ps (NewIndexHandler message σ).2 := by
  refine ⟨?_, ?_, ?_, ?_, invoke_const message σ w r r ps ps τ _⟩
  · cases hr : σ.staticFiles.files "static/index.html" with
    | error e => rw [NewIndexHandler_of_error message σ e hr]; rfl
    | ok B => rw [NewIndexHandler_of_ok message σ B hr]; rfl
  · cases hr : σ.staticFiles.files "static/index.html" with
    | error e => rw [NewIndexHandler_of_error message σ e hr]
    | ok B => rw [NewIndexHandler_of_ok message σ B hr]
  · rw [handle_apply]
  · rw [serveAll_handle message σ w r ps τ reqs τ]

end endpoints

/-! ## The claims -/

namespace endpoints

open http (ResponseWriter Call NewRecorder)

/-- C1: if the read of the embedded page succeeds with bytes `B`, the handle
returned by `NewIndexHandler(message)`, invoked with any request and any
parameters on a fresh response writer, commits status 200, commits a header
map whose only entry is `Content-Type` with the single value
`text/html; charset=utf-8`, and leaves the body exactly `B`, whatever the
message is. -/
theorem embedded_content_response (message B : List Byte) (σ τ : State)
    (r : http.Request) (ps : httprouter.Params) (sniff : List Byte → String)
    (hread : σ.staticFiles.files "static/index.html" = Except.ok B) :
    (invoke message σ (NewRecorder sniff) r ps τ).status = some 200 ∧
    (invoke message σ (NewRecorder sniff) r ps τ).sentHeader "Content-Type" =
      some ["text/html; charset=utf-8"] ∧
    (∀ k, k ≠ "Content-Type" →
      (invoke message σ (NewRecorder sniff) r ps τ).sentHeader k = none) ∧
    (invoke message σ (NewRecorder sniff) r ps τ).body = B := by
  rw [invoke_of_ok message σ B hread, WriteHeader_Write]
  simp only [ResponseWriter.commit, ResponseWriter.HeaderSet, NewRecorder, http.Header.Set,
    canonical_content_type, http.StatusOK, List.nil_append, if_true, true_and, and_true]
  intro k hk
  simp only [hk, if_false, http.Header.empty]

/-- The witness of C1: the page `<html>ok</html>` and the message `hello`. -/
theorem embedded_content_response_witness :
    Sample.withPage.staticFiles.files "static/index.html" = Except.ok Sample.page ∧
    ((invoke (utf8.bytes "hello") Sample.withPage (NewRecorder Sample.sniffPlain)
        Sample.getRoot [] Sample.withPage).status = some 200 ∧
     (invoke (utf8.bytes "hello") Sample.withPage (NewRecorder Sample.sniffPlain)
        Sample.getRoot [] Sample.withPage).sentHeader "Content-Type" =
        some ["text/html; charset=utf-8"] ∧
     (∀ k, k ≠ "Content-Type" →
       (invoke (utf8.bytes "hello") Sample.withPage (NewRecorder Sample.sniffPlain)
          Sample.getRoot [] Sample.withPage).sentHeader k = none) ∧
     (invoke (utf8.bytes "hello") Sample.withPage (NewRecorder Sample.sniffPlain)
        Sample.getRoot [] Sample.withPage).body = Sample.page) :=
  ⟨rfl, embedded_content_response (utf8.bytes "hello") Sample.page Sample.withPage
    Sample.withPage Sample.getRoot [] Sample.sniffPlain rfl⟩

/-- C2, at the message `100%`: after a failed read the handle passes the
message to `Fprintf` as a format, the trailing percent sign is read as a verb
without a name, and the body is `100%!(NOVERB)`, not the message. -/
theorem fallback_body_percent :
    (invoke (utf8.bytes "100%") Sample.noPage (NewRecorder Sample.sniffPlain)
        Sample.getRoot [] Sample.noPage).body = utf8.bytes "100%!(NOVERB)" ∧
    (invoke (utf8.bytes "100%") Sample.noPage (NewRecorder Sample.sniffPlain)
        Sample.getRoot [] Sample.noPage).body ≠ utf8.bytes "100%" := by
  decide

/-- C3: for every message, every outcome of the read of the embedded page
and every request, the handle invoked on a writer that has not committed a
status line yet commits status 200, and the status codes it passes to
`WriteHeader` during the invocation are the single code 200. -/
theorem status_always_ok (message : List Byte) (σ τ : State) (w : ResponseWriter)
    (r : http.Request) (ps : httprouter.Params) (hw : w.status = none) :
    (invoke message σ w r ps τ).status = some 200 ∧
    ((invoke message σ w r ps τ).calls.drop w.calls.length).filterMap Call.statusCode =
      [200] := by
  cases hr : σ.staticFiles.files "static/index.html" with
  | error e =>
    rw [invoke_of_error message σ e hr, fmt.Fprintf, WriteHeader_Write]
    simp [ResponseWriter.commit, hw, http.StatusOK, Call.statusCode]
  | ok B =>
    rw [invoke_of_ok message σ B hr, WriteHeader_Write]
    simp [ResponseWriter.commit, ResponseWriter.HeaderSet, hw, http.StatusOK,
      Call.statusCode]

/-- The witness of C3: a failed read, the message `100%`, a fresh writer. -/
theorem status_always_ok_witness :
    (NewRecorder Sample.sniffPlain).status = none ∧
    ((invoke (utf8.bytes "100%") Sample.noPage (NewRecorder Sample.sniffPlain)
        Sample.postRoot [] Sample.withPage).status = some 200 ∧
     ((invoke (utf8.bytes "100%") Sample.noPage (NewRecorder Sample.sniffPlain)
        Sample.postRoot [] Sample.withPage).calls.drop
          (NewRecorder Sample.sniffPlain).calls.length).filterMap Call.statusCode = [200]) :=
  ⟨rfl, status_always_ok (utf8.bytes "100%") Sample.noPage Sample.withPage
    (NewRecorder Sample.sniffPlain) Sample.postRoot [] rfl⟩

/-- C4: `NewIndexHandler` returns a handle for every message and every
outcome of the read, and a failed read is absorbed: whatever the error is,
the handle returned is the fallback handle, so the handles built under two
read errors are the same function. -/
theorem read_failure_absorbed (message : List Byte) (σ1 σ2 : State)
    (e1 e2 : embed.PathError)
    (h1 : σ1.staticFiles.files "static/index.html" = Except.error e1)
    (h2 : σ2.staticFiles.files "static/index.html" = Except.error e2) :
    (NewIndexHandler message σ1).1 =
      (fun w _ _ τ => (fmt.Fprintf (w.WriteHeader http.StatusOK) message, τ)) ∧
    (NewIndexHandler message σ1).1 = (NewIndexHandler message σ2).1 := by
  rw [NewIndexHandler_of_error message σ1 e1 h1, NewIndexHandler_of_error message σ2 e2 h2]
  exact ⟨rfl, rfl⟩

/-- The witness of C4: a missing file and a directory, two different errors. -/
theorem read_failure_absorbed_witness :
    Sample.noPage.staticFiles.files "static/index.html" = Except.error Sample.errNotExist ∧
    Sample.dirPage.staticFiles.files "static/index.html" = Except.error Sample.errIsDir ∧
    Sample.errNotExist ≠ Sample.errIsDir ∧
    ((NewIndexHandler (utf8.bytes "hello") Sample.noPage).1 =
      (fun w _ _ τ => (fmt.Fprintf (w.WriteHeader http.StatusOK) (utf8.bytes "hello"), τ)) ∧
     (NewIndexHandler (utf8.bytes "hello") Sample.noPage).1 =
      (NewIndexHandler (utf8.bytes "hello") Sample.dirPage).1) :=
  ⟨rfl, rfl, by decide,
    read_failure_absorbed (utf8.bytes "hello") Sample.noPage Sample.dirPage
      Sample.errNotExist Sample.errIsDir rfl rfl⟩

/-- C5: after a failed read the handle makes two calls on its writer,
`WriteHeader(200)` and one `Write`, and no header write: for every writer the
header map after the invocation is the header map before it, and on a writer
that has not committed yet the headers committed with the status line are
that same map, so no `Content-Type` entry is added or replaced. -/
theorem fallback_no_header_write (message : List Byte) (σ τ : State) (e : embed.PathError)
    (w : ResponseWriter) (r : http.Request) (ps : httprouter.Params)
    (hread : σ.staticFiles.files "static/index.html" = Except.error e) :
    (invoke message σ w r ps τ).header = w.header ∧
    (invoke message σ w r ps τ).calls =
      w.calls ++ [Call.writeHeader 200, Call.write (fmt.doPrintf message)] ∧
    (w.status = none → (invoke message σ w r ps τ).sentHeader = w.header) := by
  rw [invoke_of_error message σ e hread, fmt.Fprintf, WriteHeader_Write]
  refine ⟨?_, ?_, ?_⟩
  · cases h : w.status <;> simp [ResponseWriter.commit, h]
  · simp [http.StatusOK]
  · intro h
    simp [ResponseWriter.commit, h]

/-- The witness of C5: a writer with `X-Trace` and a `Content-Type` already
set keeps its `Content-Type: image/png`. -/
theorem fallback_no_header_write_witness :
    Sample.noPage.staticFiles.files "static/index.html" = Except.error Sample.errNotExist ∧
    Sample.presetWriter.status = none ∧
    (invoke (utf8.bytes "hello") Sample.noPage Sample.presetWriter Sample.getRoot []
        Sample.noPage).header = Sample.presetWriter.header ∧
    (invoke (utf8.bytes "hello") Sample.noPage Sample.presetWriter Sample.getRoot []
        Sample.noPage).sentHeader = Sample.presetWriter.header :=
  ⟨rfl, rfl,
    (fallback_no_header_write (utf8.bytes "hello") Sample.noPage Sample.noPage
      Sample.errNotExist Sample.presetWriter Sample.getRoot [] rfl).1,
    (fallback_no_header_write (utf8.bytes "hello") Sample.noPage Sample.noPage
      Sample.errNotExist Sample.presetWriter Sample.getRoot [] rfl).2.2 rfl⟩

/-- C6: for one handle returned by `NewIndexHandler`, two invocations with
any two requests and parameters, each on a writer in the same initial state,
leave the writer in the same state (status, headers, body); and in a run over
any sequence of requests every response, the n-th as the first, is that same
response. -/
theorem request_independence (message : List Byte) (σ : State) (w : ResponseWriter)
    (r1 r2 : http.Request) (ps1 ps2 : httprouter.Params) (τ1 τ2 : State)
    (reqs : List (http.Request × httprouter.Params)) :
    invoke message σ w r1 ps1 τ1 = invoke message σ w r2 ps2 τ2 ∧
    (serveAll (NewIndexHandler message σ).1 w reqs τ1).1 =
      List.replicate reqs.length (invoke message σ w r1 ps1 τ1) := by
  refine ⟨invoke_const message σ w r1 r2 ps1 ps2 τ1 τ2, ?_⟩
  rw [serveAll_handle message σ w r1 ps1 τ1 reqs τ1]

/-- C7, at the message `100%`: the handle is built while the read of the
embedded page fails and is invoked later, when the resource set holds the
page `<html>ok</html>`. The choice made at construction is kept (the page is
not served, nothing is read, the read log of the later state is as it was),
but what the handle keeps serving is not the fallback message: the message
goes through `Fprintf` as a format, and the body is `100%!(NOVERB)`. -/
theorem fallback_kept_but_formatted :
    (invoke (utf8.bytes "100%") Sample.noPage (NewRecorder Sample.sniffPlain)
        Sample.getRoot [] Sample.withPage).body = utf8.bytes "100%!(NOVERB)" ∧
    (invoke (utf8.bytes "100%") Sample.noPage (NewRecorder Sample.sniffPlain)
        Sample.getRoot [] Sample.withPage).body ≠ utf8.bytes "100%" ∧
    (invoke (utf8.bytes "100%") Sample.noPage (NewRecorder Sample.sniffPlain)
        Sample.getRoot [] Sample.withPage).body ≠ Sample.page ∧
    (NewIndexHandler (utf8.bytes "100%") Sample.noPage).2.reads = ["static/index.html"] ∧
    ((NewIndexHandler (utf8.bytes "100%") Sample.noPage).1 (NewRecorder Sample.sniffPlain)
        Sample.getRoot [] Sample.withPage).2.reads = Sample.withPage.reads := by
  decide

/-- C9: after a failed read the message is the format of `Fprintf`; a
message without a percent sign is copied, so on a fresh writer the body is
the message byte for byte and the status is 200. -/
theorem fallback_body_without_percent (message : List Byte) (σ τ : State)
    (e : embed.PathError) (r : http.Request) (ps : httprouter.Params)
    (sniff : List Byte → String)
    (hread : σ.staticFiles.files "static/index.html" = Except.error e)
    (hfmt : ∀ c ∈ message, c ≠ (37 : Byte)) :
    (invoke message σ (NewRecorder sniff) r ps τ).body = message ∧
    (invoke message σ (NewRecorder sniff) r ps τ).status = some 200 := by
  rw [invoke_of_error message σ e hread, fmt.Fprintf, WriteHeader_Write,
    fmt.doPrintf_of_no_percent message hfmt]
  simp [NewRecorder, ResponseWriter.commit, http.StatusOK]

/-- The witness of C9: the message `hello` gives the body `hello`. -/
theorem fallback_body_without_percent_witness :
    Sample.noPage.staticFiles.files "static/index.html" = Except.error Sample.errNotExist ∧
    (∀ c ∈ utf8.bytes "hello", c ≠ (37 : Byte)) ∧
    (invoke (utf8.bytes "hello") Sample.noPage (NewRecorder Sample.sniffPlain)
        Sample.getRoot [] Sample.noPage).body = utf8.bytes "hello" ∧
    (invoke (utf8.bytes "hello") Sample.noPage (NewRecorder Sample.sniffPlain)
        Sample.getRoot [] Sample.noPage).status = some 200 :=
  ⟨rfl, by decide,
    fallback_body_without_percent (utf8.bytes "hello") Sample.noPage Sample.noPage
      Sample.errNotExist Sample.getRoot [] Sample.sniffPlain rfl (by decide)⟩

/-- C10: after a successful read with bytes `B` the handle makes three calls
on its writer, in this order: `Header().Set("Content-Type", ...)`,
`WriteHeader(200)`, `Write(B)`. The header map then has the single value
`text/html; charset=utf-8` at `Content-Type`, whatever was there, and every
other entry as before; on a writer that has not committed yet this map is
the one committed with the status line. -/
theorem embedded_content_header_order (message B : List Byte) (σ τ : State)
    (w : ResponseWriter) (r : http.Request) (ps : httprouter.Params)
    (hread : σ.staticFiles.files "static/index.html" = Except.ok B) :
    (invoke message σ w r ps τ).calls =
      w.calls ++ [Call.headerSet "Content-Type" "text/html; charset=utf-8",
                  Call.writeHeader 200, Call.write B] ∧
    (invoke message σ w r ps τ).header "Content-Type" =
      some ["text/html; charset=utf-8"] ∧
    (∀ k, k ≠ "Content-Type" → (invoke message σ w r ps τ).header k = w.header k) ∧
    (w.status = none →
      (invoke message σ w r ps τ).sentHeader = (invoke message σ w r ps τ).header) := by
  rw [invoke_of_ok message σ B hread, WriteHeader_Write]
  refine ⟨?_, ?_, ?_, ?_⟩
  · simp [ResponseWriter.HeaderSet, http.StatusOK]
  · cases h : w.status <;>
      simp [ResponseWriter.commit, ResponseWriter.HeaderSet, h, http.Header.Set,
        canonical_content_type]
  · intro k hk
    cases h : w.status <;>
      simp [ResponseWriter.commit, ResponseWriter.HeaderSet, h, http.Header.Set,
        canonical_content_type, hk]
  · intro h
    simp [ResponseWriter.commit, ResponseWriter.HeaderSet, h]

/-- The witness of C10: on a writer with `Content-Type: image/png` and
`X-Trace: 7` set, the committed `Content-Type` is the HTML one and `X-Trace`
is kept. -/
theorem embedded_content_header_order_witness :
    Sample.withPage.staticFiles.files "static/index.html" = Except.ok Sample.page ∧
    Sample.presetWriter.header "Content-Type" = some ["image/png"] ∧
    Sample.presetWriter.status = none ∧
    (invoke (utf8.bytes "hello") Sample.withPage Sample.presetWriter Sample.getRoot []
        Sample.noPage).header "Content-Type" = some ["text/html; charset=utf-8"] ∧
    (invoke (utf8.bytes "hello") Sample.withPage Sample.presetWriter Sample.getRoot []
        Sample.noPage).header "X-Trace" = Sample.presetWriter.header "X-Trace" ∧
    (invoke (utf8.bytes "hello") Sample.withPage Sample.presetWriter Sample.getRoot []
        Sample.noPage).sentHeader =
      (invoke (utf8.bytes "hello") Sample.withPage Sample.presetWriter Sample.getRoot []
        Sample.noPage).header :=
  ⟨rfl, by decide, rfl,
    (embedded_content_header_order (utf8.bytes "hello") Sample.page Sample.withPage
      Sample.noPage Sample.presetWriter Sample.getRoot [] rfl).2.1,
    (embedded_content_header_order (utf8.bytes "hello") Sample.page Sample.withPage
      Sample.noPage Sample.presetWriter Sample.getRoot [] rfl).2.2.1 "X-Trace" (by decide),
    (embedded_content_header_order (utf8.bytes "hello") Sample.page Sample.withPage
      Sample.noPage Sample.presetWriter Sample.getRoot [] rfl).2.2.2 rfl⟩

end endpoints
